import Mathlib

/-!
Shallow embedding of the cycle-tracking core of the couple-app backend:
the Cycle data model (src/src/models/Cycle.js together with the richer
route file for /cycle) and the route handlers for starting, ending,
logging, deleting and clearing periods, symptom sharing and prediction.

Dates are modelled as integer timestamps in milliseconds (JavaScript
Date values).  All date arithmetic in the source happens on exact
millisecond integers divided by 86400000; those divisions are modelled
exactly over the integers.  The exponential-smoothing expression
`Math.round(x * 0.7 + y * 0.3)` is evaluated by the source in IEEE
binary64 arithmetic, which differs from exact rational arithmetic at
tie points; it is modelled bit-exactly below (`jsSmooth`).
-/

namespace CoupleApp

/-- Milliseconds per day, the divisor `1000 * 60 * 60 * 24` used throughout
the cycle routes. -/
def msPerDay : Int := 86400000

/-- JavaScript `Math.round (a / b)` for integer `a` and positive integer `b`,
computed exactly: round half toward positive infinity, i.e. `⌊a/b + 1/2⌋`.
For the divisors appearing in the source (86400000, and gap counts 1 or 2)
the double division is exact at every tie point, so this integer model
agrees with the JavaScript evaluation. -/
def jsRoundDiv (a b : Int) : Int := Int.fdiv (2 * a + b) (2 * b)

/-- JavaScript `Math.ceil (a / b)` for integer `a` and positive integer `b`,
computed exactly: `⌈a/b⌉`. -/
def jsCeilDiv (a b : Int) : Int := Int.fdiv (a + b - 1) b

/-!
Bit-exact model of `Math.round((x * 0.7) + (y * 0.3))` for small natural
`x`, `y` (the cycle/period-length smoothing in the routes).  The literals
0.7 and 0.3 are not representable in binary64; the products and the sum
are each rounded to 53 significant bits (round to nearest, ties to even),
and `Math.round` then rounds the resulting double half toward +∞ exactly.
-/

/-- Significand of the binary64 value nearest 0.7: that value is
`sig7 / 2 ^ 53`. -/
def sig7 : Nat := 6305039478318694

/-- Significand of the binary64 value nearest 0.3: that value is
`sig3 / 2 ^ 54`. -/
def sig3 : Nat := 5404319552844595

/-- Bit length of a natural number, by structural fuel recursion
(exact for `n < 2 ^ 128`, far beyond every value arising here). -/
def bitlenAux : Nat → Nat → Nat
  | 0, _ => 0
  | fuel + 1, n => if n = 0 then 0 else bitlenAux fuel (n / 2) + 1

/-- Bit length of `n` (number of binary digits of `n`, 0 for 0). -/
def bitlen (n : Nat) : Nat := bitlenAux 128 n

/-- Round `n / 2 ^ k` to the nearest integer, ties to even
(the IEEE default rounding direction). -/
def rne (n k : Nat) : Nat :=
  if k = 0 then n
  else
    let q := n / 2 ^ k
    let r := n % 2 ^ k
    let half := 2 ^ (k - 1)
    if half < r then q + 1
    else if r < half then q
    else if q % 2 = 1 then q + 1 else q

/-- Round the dyadic rational `n / 2 ^ e` to 53 significant bits,
returning `(m, s)` with value `m / 2 ^ s`: binary64 rounding for the
normal, non-overflowing magnitudes arising in the smoothing formula. -/
def round53 (n e : Nat) : Nat × Nat :=
  let L := bitlen n
  if L ≤ 53 then (n, e) else (rne n (L - 53), e - (L - 53))

/-- Binary64 product of a natural number with the constant `m / 2 ^ e`. -/
def dblMul (c m e : Nat) : Nat × Nat := round53 (c * m) e

/-- Binary64 sum of two nonnegative dyadic doubles given as `(m, e)`
pairs with value `m / 2 ^ e`. -/
def dblAdd (x y : Nat × Nat) : Nat × Nat :=
  let e := max x.2 y.2
  round53 (x.1 * 2 ^ (e - x.2) + y.1 * 2 ^ (e - y.2)) e

/-- Bit-exact model of the source expression
`Math.round((c * 0.7) + (d * 0.3))` on naturals `c`, `d`: both products
and the sum are correctly rounded binary64 operations, and the final
`Math.round` rounds the exact value of the resulting double half
toward +∞. -/
def jsSmooth (c d : Nat) : Nat :=
  let s := dblAdd (dblMul c sig7 53) (dblMul d sig3 54)
  (2 * s.1 + 2 ^ s.2) / 2 ^ (s.2 + 1)

/-- Integer wrapper for `jsSmooth`; the stored lengths are nonnegative in
every state the schema admits, so `toNat` is the identity there. -/
def jsSmoothI (c d : Int) : Int := (jsSmooth c.toNat d.toNat : Nat)

/-- Exact-arithmetic reading of the smoothing formula as the spec words it:
`round(0.7 * c + 0.3 * d)` over the rationals, rounding half toward +∞.
Written from the spec for comparison with the binary64 evaluation. -/
def specSmooth (c d : Int) : Int := jsRoundDiv (7 * c + 3 * d) 10

/-- Flow intensity enum of the period schema. -/
inductive Flow where
  | light
  | medium
  | heavy
deriving DecidableEq, Repr

/-- One entry of the period ledger (the `periodSchema` subdocument):
`endDate = none` means the period is ongoing.  `id` models the
storage-assigned subdocument identifier. -/
structure Period where
  id : Nat
  startDate : Int
  endDate : Option Int
  flow : Flow
deriving DecidableEq, Repr

/-- The fixed symptom-type enum of the `symptomSchema` subdocument. -/
inductive SymptomType where
  | cramps
  | headache
  | moodSwings
  | bloating
  | fatigue
  | breastTenderness
  | acne
  | backPain
  | nausea
  | other
deriving DecidableEq, Repr

/-- One entry of the symptom log (the `symptomSchema` subdocument). -/
structure Symptom where
  date : Int
  stype : SymptomType
  severity : Int
  notes : Option String
deriving DecidableEq, Repr

/-- The manual next-period override stored on the profile. -/
structure ExpectedNextPeriod where
  startDate : Option Int
  endDate : Option Int
  isManuallySet : Bool
deriving DecidableEq, Repr

/-- The CycleProfile document (`cycleSchema`), richer-variant fields
included (`lastPeriodEnd`, `expectedNextPeriod`).  `userId` is the
document key and is left implicit: every operation below acts on one
user's profile. -/
structure Cycle where
  cycleLength : Int
  periodLength : Int
  periods : List Period
  symptoms : List Symptom
  shareWith : List Nat
  lastPeriodStart : Option Int
  lastPeriodEnd : Option Int
  expectedNextPeriod : ExpectedNextPeriod
  isTracking : Bool
deriving DecidableEq, Repr

/-- The profile created lazily by the routes when none exists:
`{cycleLength: 28, periodLength: 5, isTracking: true}` with schema
defaults for the remaining fields. -/
def defaultCycle : Cycle :=
  { cycleLength := 28
    periodLength := 5
    periods := []
    symptoms := []
    shareWith := []
    lastPeriodStart := none
    lastPeriodEnd := none
    expectedNextPeriod := ⟨none, none, false⟩
    isTracking := true }

/-- Error taxonomy of the routes: 404 responses are `notFoundError`,
400 responses for temporal-invariant violations are `conflictError`
(carrying the conflicting period's start date when the source includes
it), 400 responses for malformed dates are `validationError`, and 403
responses are `permissionError`. -/
inductive CycleError where
  | notFoundError
  | conflictError (overlapsWithStart : Option Int)
  | validationError
  | permissionError
deriving DecidableEq, Repr

/-- Cycle phase as returned by `getCurrentPhase`. -/
inductive Phase where
  | menstrual
  | follicular
  | ovulation
  | luteal
deriving DecidableEq, Repr

/-- The phase boundaries of `getCurrentPhase` as a function of the 1-indexed
cycle day and the profile's period length. -/
def phaseOfDay (cycleDay periodLength : Int) : Phase :=
  if cycleDay ≤ periodLength then .menstrual
  else if cycleDay ≤ 13 then .follicular
  else if cycleDay ≤ 16 then .ovulation
  else .luteal

/-- The model method `getCurrentCycleDay` (src/src/models/Cycle.js):
`null` without `lastPeriodStart`; otherwise
`diffDays = Math.ceil(Math.abs(today - lastPeriodStart) / msPerDay)` and
`diffDays % cycleLength || cycleLength` (the JavaScript `||` maps a zero
remainder to `cycleLength`). -/
def Cycle.getCurrentCycleDay (c : Cycle) (today : Int) : Option Int :=
  match c.lastPeriodStart with
  | none => none
  | some l =>
      let diffDays := jsCeilDiv |today - l| msPerDay
      some (if diffDays % c.cycleLength = 0 then c.cycleLength
            else diffDays % c.cycleLength)

/-- The model method `getCurrentPhase` (src/src/models/Cycle.js): `null`
when the cycle day is `null` (or the falsy 0, mirroring `!cycleDay`),
otherwise the phase bucket of the cycle day. -/
def Cycle.getCurrentPhase (c : Cycle) (today : Int) : Option Phase :=
  match c.getCurrentCycleDay today with
  | none => none
  | some d => if d = 0 then none else some (phaseOfDay d c.periodLength)

/-- The derived next-period forecast returned by `getNextPeriod`. -/
structure NextPeriod where
  startDate : Int
  endDate : Option Int
  isManuallySet : Bool
deriving DecidableEq, Repr

/-- Modelled from the spec: the calculated branch of `nextPeriod()` (§4.5) —
the Cycle model method `getNextPeriod` is called by the richer cycle routes
but its definition is not among the sources (only the superseded
`getPredictedNextPeriod` is).  With `lastPeriodStart` present the forecast
starts `cycleLength` days after it and ends `periodLength - 1` days after
that start, flagged not manual; otherwise `null`. -/
def Cycle.calculatedNextPeriod (c : Cycle) : Option NextPeriod :=
  match c.lastPeriodStart with
  | none => none
  | some l =>
      let s := l + c.cycleLength * msPerDay
      some ⟨s, some (s + (c.periodLength - 1) * msPerDay), false⟩

/-- Modelled from the spec: `nextPeriod()` (§4.5) — the Cycle model method
`getNextPeriod` is absent from the sources (see `calculatedNextPeriod`).
If the manual override is set and has a start date it is returned verbatim
with `isManuallySet: true`; otherwise the calculated forecast. -/
def Cycle.getNextPeriod (c : Cycle) : Option NextPeriod :=
  match c.expectedNextPeriod.isManuallySet, c.expectedNextPeriod.startDate with
  | true, some s => some ⟨s, c.expectedNextPeriod.endDate, true⟩
  | _, _ => c.calculatedNextPeriod

/-- Truncation of a timestamp to midnight, `setHours(0, 0, 0, 0)`,
modelled against the UTC day grid. -/
def dayFloor (t : Int) : Int := Int.fdiv t msPerDay * msPerDay

/-- Whether the ledger's last entry is ongoing — the check
`lastPeriod && !lastPeriod.endDate` shared by the get/start routes. -/
def lastOngoing (l : List Period) : Bool :=
  match l.getLast? with
  | some p => p.endDate.isNone
  | none => false

/-- POST /period/start.  `pid` is the storage-assigned identifier of the
new subdocument, `now` the server clock.  Returns the updated profile and
the `cameEarly` flag. -/
def startPeriod (pid : Nat) (now : Int) (dateOpt : Option Int)
    (flowOpt : Option Flow) (profile : Option Cycle) :
    Except CycleError (Cycle × Bool) :=
  let startDate := dateOpt.getD now
  let flow := flowOpt.getD .medium
  let c := profile.getD defaultCycle
  if lastOngoing c.periods then .error (.conflictError none)
  else
    let c1 :=
      match c.lastPeriodStart with
      | some lps =>
          let daysBetween := jsRoundDiv (startDate - lps) msPerDay
          if 21 ≤ daysBetween ∧ daysBetween ≤ 45 then
            { c with cycleLength := jsSmoothI c.cycleLength daysBetween }
          else c
      | none => c
    let cameEarly :=
      match c.expectedNextPeriod.isManuallySet,
            c.expectedNextPeriod.startDate with
      | true, some es => decide (dayFloor startDate < dayFloor es)
      | _, _ => false
    .ok ({ c1 with
            periods := c1.periods ++ [⟨pid, startDate, none, flow⟩]
            lastPeriodStart := some startDate
            expectedNextPeriod := ⟨none, none, false⟩ },
         cameEarly)

/-- POST /period/end. -/
def endPeriod (now : Int) (dateOpt : Option Int) (profile : Option Cycle) :
    Except CycleError Cycle :=
  let endDate := dateOpt.getD now
  match profile with
  | none => .error .notFoundError
  | some c =>
      match c.periods.getLast? with
      | none => .error (.conflictError none)
      | some lastPeriod =>
          if lastPeriod.endDate.isSome then .error (.conflictError none)
          else
            let periodDays :=
              jsRoundDiv (endDate - lastPeriod.startDate) msPerDay + 1
            if periodDays < 1 then .error .validationError
            else
              let c1 := { c with
                periods := c.periods.dropLast ++
                  [{ lastPeriod with endDate := some endDate }]
                lastPeriodEnd := some endDate }
              if 1 ≤ periodDays ∧ periodDays ≤ 10 then
                .ok { c1 with
                  periodLength := jsSmoothI c1.periodLength periodDays }
              else .ok c1

/-- Provisional end of an interval: the explicit end date, or seven days
after the start for an open entry. -/
def effectiveEnd (startDate : Int) (endDate : Option Int) : Int :=
  endDate.getD (startDate + 7 * msPerDay)

/-- Effective interval end of a ledger entry. -/
def Period.effectiveEndDate (p : Period) : Int :=
  effectiveEnd p.startDate p.endDate

/-- The overlap test of POST /period/log:
`startDate <= existingEnd && newEndDate >= existingStart`. -/
def overlapsNew (newStart newEnd : Int) (p : Period) : Bool :=
  decide (newStart ≤ p.effectiveEndDate ∧ p.startDate ≤ newEnd)

/-- Stable insertion with respect to a strict comparison: the new element
is placed before the first strictly greater entry and after equal ones. -/
def stableInsert {α : Type} (lt : α → α → Bool) (x : α) :
    List α → List α
  | [] => [x]
  | y :: ys => if lt x y then x :: y :: ys else y :: stableInsert lt x ys

/-- Stable insertion sort: elements are inserted in original order, each
after existing equal keys.  A stable sort's output is uniquely determined
by the key order, so this is exactly the semantics of JavaScript's
`Array.prototype.sort` with a subtraction comparator (stable per the
ECMAScript specification). -/
def stableSortBy {α : Type} (lt : α → α → Bool) (l : List α) : List α :=
  l.foldl (fun acc x => stableInsert lt x acc) []

/-- The semantics of `periods.sort((a, b) => a.startDate - b.startDate)`:
the stable ascending sort by start date. -/
def sortPeriods (l : List Period) : List Period :=
  stableSortBy (fun a b => decide (a.startDate < b.startDate)) l

/-- Consecutive start-date gaps in days,
`Math.round((recent[i].startDate - recent[i-1].startDate) / msPerDay)`. -/
def startGaps : List Period → List Int
  | p :: q :: rest =>
      jsRoundDiv (q.startDate - p.startDate) msPerDay :: startGaps (q :: rest)
  | _ => []

/-- The validation `endDate && endDate < startDate` of POST /period/log. -/
def endBeforeStart (startDate : Int) (endDateOpt : Option Int) : Bool :=
  match endDateOpt with
  | some e => decide (e < startDate)
  | none => false

/-- Stage of POST /period/log after insertion and re-sort: if the newly
inserted period is now the chronologically last one, refresh the
lastPeriodStart/lastPeriodEnd caches from it. -/
def logUpdateCaches (startDate : Int) (endDateOpt : Option Int)
    (c1 : Cycle) : Cycle :=
  match c1.periods.getLast? with
  | some mostRecent =>
      if mostRecent.startDate = startDate then
        { c1 with lastPeriodStart := some startDate
                  lastPeriodEnd := endDateOpt }
      else c1
  | none => c1

/-- The valid (21–45 day) consecutive start-date gaps among the three
most recent entries of a ledger (`slice(-3)` of the sorted array). -/
def validGaps (l : List Period) : List Int :=
  (startGaps (l.drop (l.length - 3))).filter fun g => decide (21 ≤ g ∧ g ≤ 45)

/-- Stage of POST /period/log: with at least two periods, re-estimate
cycleLength as the rounded mean of the valid gaps among the three most
recent periods; no valid gap leaves it unchanged. -/
def logBatchCycleLength (c2 : Cycle) : Cycle :=
  if 2 ≤ c2.periods.length then
    if 0 < (validGaps c2.periods).length then
      { c2 with cycleLength :=
          jsRoundDiv (validGaps c2.periods).sum (validGaps c2.periods).length }
    else c2
  else c2

/-- Stage of POST /period/log: when an end date was supplied, apply the
periodLength smoothing for in-range period lengths. -/
def logSmoothPeriodLength (startDate : Int) (endDateOpt : Option Int)
    (c3 : Cycle) : Cycle :=
  match endDateOpt with
  | some e =>
      if 1 ≤ jsRoundDiv (e - startDate) msPerDay + 1 ∧
          jsRoundDiv (e - startDate) msPerDay + 1 ≤ 10 then
        { c3 with periodLength :=
            jsSmoothI c3.periodLength (jsRoundDiv (e - startDate) msPerDay + 1) }
      else c3
  | none => c3

/-- POST /period/log.  `oneYearAgo`/`oneYearAhead` are the calendar bounds
the handler derives from the server clock (calendar-year arithmetic is
performed outside this model and the bounds passed in). -/
def logPeriod (pid : Nat) (oneYearAgo oneYearAhead : Int) (startDate : Int)
    (endDateOpt : Option Int) (flowOpt : Option Flow)
    (profile : Option Cycle) : Except CycleError Cycle :=
  let flow := flowOpt.getD .medium
  if endBeforeStart startDate endDateOpt then .error .validationError
  else if startDate < oneYearAgo ∨ oneYearAhead < startDate then
    .error .validationError
  else
    let c := profile.getD defaultCycle
    let newEndDate := effectiveEnd startDate endDateOpt
    match c.periods.find? (overlapsNew startDate newEndDate) with
    | some p => .error (.conflictError (some p.startDate))
    | none =>
        .ok (logSmoothPeriodLength startDate endDateOpt
          (logBatchCycleLength
            (logUpdateCaches startDate endDateOpt
              { c with periods :=
                  sortPeriods (c.periods ++ [⟨pid, startDate, endDateOpt, flow⟩]) })))

/-- Stage of DELETE /period/:periodId after the splice: recompute the
lastPeriodStart/lastPeriodEnd caches from the remaining ledger — most
recent completed period preferred, else most recent by start date with a
null end, else both null on an empty ledger. -/
def recomputeCaches (c : Cycle) (remaining : List Period) : Cycle :=
  if remaining.isEmpty then
    { c with periods := remaining
             lastPeriodStart := none
             lastPeriodEnd := none }
  else
    match ((sortPeriods remaining).filter fun p => p.endDate.isSome).getLast? with
    | some mostRecent =>
        { c with periods := sortPeriods remaining
                 lastPeriodStart := some mostRecent.startDate
                 lastPeriodEnd := mostRecent.endDate }
    | none =>
        match (sortPeriods remaining).getLast? with
        | some mostRecent =>
            { c with periods := sortPeriods remaining
                     lastPeriodStart := some mostRecent.startDate
                     lastPeriodEnd := none }
        | none =>
            { c with periods := sortPeriods remaining
                     lastPeriodStart := none
                     lastPeriodEnd := none }

/-- DELETE /period/:periodId. -/
def deletePeriod (periodId : Nat) (profile : Option Cycle) :
    Except CycleError Cycle :=
  match profile with
  | none => .error .notFoundError
  | some c =>
      match c.periods.findIdx? (fun p => p.id == periodId) with
      | none => .error .notFoundError
      | some idx => .ok (recomputeCaches c (c.periods.eraseIdx idx))

/-- DELETE /periods: full reset. -/
def clearPeriods (profile : Option Cycle) : Except CycleError Cycle :=
  match profile with
  | none => .error .notFoundError
  | some c =>
      .ok { c with periods := []
                   lastPeriodStart := none
                   lastPeriodEnd := none
                   expectedNextPeriod := ⟨none, none, false⟩
                   cycleLength := 28
                   periodLength := 5 }

/-- The semantics of `sort((a, b) => b.date - a.date)`: the stable
descending sort by date. -/
def sortSymptomsDesc (l : List Symptom) : List Symptom :=
  stableSortBy (fun a b => decide (b.date < a.date)) l

/-- The derived view returned by GET /cycle/user/:userId (fields relevant
to the shared-read claims). -/
structure SharedCycleView where
  recentSymptoms : List Symptom
  currentPhase : Option Phase
  nextPeriod : Option NextPeriod
  hasOngoingPeriod : Bool
deriving DecidableEq, Repr

/-- GET /cycle/user/:userId.  `relationshipAccepted` is the external
Connection check (an accepted relationship in either direction); the
`shareWith` membership test models `Cycle.findOne({userId, shareWith})`,
which also misses when the owner has no profile. -/
def getSharedCycle (now : Int) (relationshipAccepted : Bool) (viewerId : Nat)
    (ownerProfile : Option Cycle) : Except CycleError SharedCycleView :=
  if !relationshipAccepted then .error .permissionError
  else
    match ownerProfile with
    | none => .error .permissionError
    | some c =>
        if c.shareWith.contains viewerId then
          let sevenDaysAgo := now - 7 * msPerDay
          .ok { recentSymptoms :=
                  (sortSymptomsDesc (c.symptoms.filter fun s =>
                    decide (sevenDaysAgo ≤ s.date))).take 10
                currentPhase := c.getCurrentPhase now
                nextPeriod := c.getNextPeriod
                hasOngoingPeriod := lastOngoing c.periods }
        else .error .permissionError

/-- One request against the cycle routes, for reachability statements. -/
inductive CycleOp where
  | startP (pid : Nat) (date : Option Int) (flow : Option Flow)
  | endP (date : Option Int)
  | logP (pid : Nat) (startDate : Int) (endDate : Option Int)
      (flow : Option Flow)
  | deleteP (periodId : Nat)
  | clearP
deriving DecidableEq, Repr

/-- Apply one request to the stored profile; a failed request leaves the
store unchanged (every handler checks before mutating and saves once). -/
def applyOp (now oneYearAgo oneYearAhead : Int) (s : Option Cycle) :
    CycleOp → Option Cycle
  | .startP pid d f =>
      match startPeriod pid now d f s with
      | .ok (c, _) => some c
      | .error _ => s
  | .endP d =>
      match endPeriod now d s with
      | .ok c => some c
      | .error _ => s
  | .logP pid sd ed f =>
      match logPeriod pid oneYearAgo oneYearAhead sd ed f s with
      | .ok c => some c
      | .error _ => s
  | .deleteP pid =>
      match deletePeriod pid s with
      | .ok c => some c
      | .error _ => s
  | .clearP =>
      match clearPeriods s with
      | .ok c => some c
      | .error _ => s

/-- Apply a sequence of requests. -/
def applyOps (now oneYearAgo oneYearAhead : Int) (s : Option Cycle)
    (ops : List CycleOp) : Option Cycle :=
  ops.foldl (applyOp now oneYearAgo oneYearAhead) s

/-- The symmetric interval-intersection relation of the spec's invariant:
the effective intervals of two ledger entries intersect. -/
def periodsOverlap (p q : Period) : Prop :=
  p.startDate ≤ q.effectiveEndDate ∧ q.startDate ≤ p.effectiveEndDate

instance (p q : Period) : Decidable (periodsOverlap p q) := by
  unfold periodsOverlap; infer_instance

/-- At most one ledger entry is ongoing. -/
def atMostOneOngoing (l : List Period) : Prop :=
  l.countP (fun p => p.endDate.isNone) ≤ 1

instance (l : List Period) : Decidable (atMostOneOngoing l) := by
  unfold atMostOneOngoing; infer_instance

/-- No two ledger entries have intersecting effective intervals. -/
def noOverlaps (l : List Period) : Prop :=
  l.Pairwise (fun p q => ¬ periodsOverlap p q)

instance (l : List Period) : Decidable (noOverlaps l) := by
  unfold noOverlaps; infer_instance

/-!
Structural facts about the stable insertion sort used to model
JavaScript's stable `Array.prototype.sort`.
-/

theorem stableInsert_perm {α : Type} (lt : α → α → Bool) (x : α)
    (l : List α) : (stableInsert lt x l).Perm (x :: l) := by
  induction l with
  | nil => exact List.Perm.refl _
  | cons y ys ih =>
      simp only [stableInsert]
      split
      · exact List.Perm.refl _
      · exact (ih.cons y).trans (List.Perm.swap x y ys)

theorem stableSortBy_aux_perm {α : Type} (lt : α → α → Bool)
    (l : List α) : ∀ acc : List α,
    (l.foldl (fun acc x => stableInsert lt x acc) acc).Perm (acc ++ l) := by
  induction l with
  | nil => intro acc; simp
  | cons x xs ih =>
      intro acc
      simp only [List.foldl_cons]
      exact (ih (stableInsert lt x acc)).trans
        (((stableInsert_perm lt x acc).append_right xs).trans
          List.perm_middle.symm)

theorem stableSortBy_perm {α : Type} (lt : α → α → Bool) (l : List α) :
    (stableSortBy lt l).Perm l := by
  simpa [stableSortBy] using stableSortBy_aux_perm lt l []

theorem stableInsert_pairwise {α : Type} (lt : α → α → Bool)
    (hasym : ∀ a b, lt a b = true → lt b a = false)
    (htrans : ∀ a b c, lt a b = true → lt c b = false → lt c a = false)
    (x : α) (l : List α) (hl : l.Pairwise fun a b => lt b a = false) :
    (stableInsert lt x l).Pairwise fun a b => lt b a = false := by
  induction l with
  | nil => simp [stableInsert]
  | cons y ys ih =>
      rcases List.pairwise_cons.mp hl with ⟨hy, hys⟩
      simp only [stableInsert]
      split
      next hxy =>
        refine List.pairwise_cons.mpr ⟨?_, hl⟩
        intro z hz
        rcases List.mem_cons.mp hz with rfl | hz
        · exact hasym _ _ hxy
        · exact htrans x y z hxy (hy z hz)
      next hxy =>
        refine List.pairwise_cons.mpr ⟨?_, ih hys⟩
        intro z hz
        have hz' := (stableInsert_perm lt x ys).mem_iff.mp hz
        rcases List.mem_cons.mp hz' with rfl | hz
        · exact Bool.eq_false_iff.mpr hxy
        · exact hy z hz

theorem stableSortBy_aux_pairwise {α : Type} (lt : α → α → Bool)
    (hasym : ∀ a b, lt a b = true → lt b a = false)
    (htrans : ∀ a b c, lt a b = true → lt c b = false → lt c a = false)
    (l : List α) : ∀ acc : List α,
    (acc.Pairwise fun a b => lt b a = false) →
    (l.foldl (fun acc x => stableInsert lt x acc) acc).Pairwise
      fun a b => lt b a = false := by
  induction l with
  | nil => intro acc hacc; exact hacc
  | cons x xs ih =>
      intro acc hacc
      simp only [List.foldl_cons]
      exact ih _ (stableInsert_pairwise lt hasym htrans x acc hacc)

theorem stableSortBy_pairwise {α : Type} (lt : α → α → Bool)
    (hasym : ∀ a b, lt a b = true → lt b a = false)
    (htrans : ∀ a b c, lt a b = true → lt c b = false → lt c a = false)
    (l : List α) :
    (stableSortBy lt l).Pairwise fun a b => lt b a = false :=
  stableSortBy_aux_pairwise lt hasym htrans l [] List.Pairwise.nil

theorem sortPeriods_perm (l : List Period) : (sortPeriods l).Perm l :=
  stableSortBy_perm _ l

theorem sortPeriods_sorted (l : List Period) :
    (sortPeriods l).Pairwise fun a b => a.startDate ≤ b.startDate := by
  have h := stableSortBy_pairwise
    (fun a b : Period => decide (a.startDate < b.startDate))
    (by intro a b h; simp only [decide_eq_true_eq] at h
        simp only [decide_eq_false_iff_not]; omega)
    (by intro a b c h1 h2
        simp only [decide_eq_true_eq] at h1
        simp only [decide_eq_false_iff_not] at h2 ⊢; omega) l
  exact h.imp fun hab => by
    simp only [decide_eq_false_iff_not] at hab; omega

theorem sortSymptomsDesc_perm (l : List Symptom) :
    (sortSymptomsDesc l).Perm l :=
  stableSortBy_perm _ l

theorem sortSymptomsDesc_sorted (l : List Symptom) :
    (sortSymptomsDesc l).Pairwise fun a b => b.date ≤ a.date := by
  have h := stableSortBy_pairwise
    (fun a b : Symptom => decide (b.date < a.date))
    (by intro a b h; simp only [decide_eq_true_eq] at h
        simp only [decide_eq_false_iff_not]; omega)
    (by intro a b c h1 h2
        simp only [decide_eq_true_eq] at h1
        simp only [decide_eq_false_iff_not] at h2 ⊢; omega) l
  exact h.imp fun hab => by
    simp only [decide_eq_false_iff_not] at hab; omega

theorem pairwise_le_getLast {α : Type} (f : α → Int) :
    ∀ l : List α, (l.Pairwise fun a b => f a ≤ f b) →
    ∀ p, l.getLast? = some p → ∀ q ∈ l, f q ≤ f p := by
  intro l
  induction l with
  | nil => intro _ p hp; simp at hp
  | cons x xs ih =>
      intro h p hp q hq
      rcases List.pairwise_cons.mp h with ⟨hx, hxs⟩
      cases xs with
      | nil =>
          simp only [List.getLast?_singleton, Option.some.injEq] at hp
          rcases List.mem_singleton.mp hq with rfl
          subst hp; exact le_refl _
      | cons y ys =>
          rw [List.getLast?_cons_cons] at hp
          rcases List.mem_cons.mp hq with rfl | hq'
          · exact hx p (List.mem_of_mem_getLast? hp)
          · exact ih hxs p hp q hq'

instance {ε α : Type} [DecidableEq ε] [DecidableEq α] :
    DecidableEq (Except ε α) := fun x y =>
  match x, y with
  | .ok a, .ok b =>
      if h : a = b then .isTrue (by rw [h]) else .isFalse (by simp [h])
  | .error a, .error b =>
      if h : a = b then .isTrue (by rw [h]) else .isFalse (by simp [h])
  | .ok _, .error _ => .isFalse (by simp)
  | .error _, .ok _ => .isFalse (by simp)

/-!
Sample states used by the witness theorems below.
-/

/-- A completed four-day period early in the epoch. -/
def wPeriod1 : Period := ⟨1, 0, some (4 * msPerDay), .medium⟩

/-- A completed period one month later. -/
def wPeriod2 : Period := ⟨2, 30 * msPerDay, some (34 * msPerDay), .light⟩

/-- A profile holding the two completed sample periods. -/
def wCycle : Cycle :=
  { defaultCycle with
      periods := [wPeriod1, wPeriod2]
      lastPeriodStart := some (30 * msPerDay)
      lastPeriodEnd := some (34 * msPerDay) }

/-- The sample profile after deleting the first period. -/
def wCycleDel1 : Cycle :=
  { defaultCycle with
      periods := [wPeriod2]
      lastPeriodStart := some (30 * msPerDay)
      lastPeriodEnd := some (34 * msPerDay) }

/-- The cache-recomputation stage touches only the ledger and the two
cache fields. -/
theorem recomputeCaches_frame (c : Cycle) (r : List Period) :
    (recomputeCaches c r).cycleLength = c.cycleLength ∧
    (recomputeCaches c r).periodLength = c.periodLength ∧
    (recomputeCaches c r).symptoms = c.symptoms ∧
    (recomputeCaches c r).shareWith = c.shareWith ∧
    (recomputeCaches c r).expectedNextPeriod = c.expectedNextPeriod ∧
    (recomputeCaches c r).isTracking = c.isTracking := by
  unfold recomputeCaches
  split
  · exact ⟨rfl, rfl, rfl, rfl, rfl, rfl⟩
  · split
    · exact ⟨rfl, rfl, rfl, rfl, rfl, rfl⟩
    · split
      · exact ⟨rfl, rfl, rfl, rfl, rfl, rfl⟩
      · exact ⟨rfl, rfl, rfl, rfl, rfl, rfl⟩

/-!
Claim theorems.
-/

/-- C10: for every profile and period identifier in its ledger, a
successful deletePeriod changes only the periods collection and the
lastPeriodStart/lastPeriodEnd caches; cycleLength, periodLength, symptoms,
shareWith, expectedNextPeriod and isTracking are unchanged, so deleting a
period never re-derives the length estimates. -/
theorem deletePeriod_frame (pid : Nat) (c c' : Cycle)
    (h : deletePeriod pid (some c) = .ok c') :
    c'.cycleLength = c.cycleLength ∧ c'.periodLength = c.periodLength ∧
    c'.symptoms = c.symptoms ∧ c'.shareWith = c.shareWith ∧
    c'.expectedNextPeriod = c.expectedNextPeriod ∧
    c'.isTracking = c.isTracking := by
  simp only [deletePeriod] at h
  split at h
  · exact Except.noConfusion h
  · cases h; exact recomputeCaches_frame c _

/-- Witness for C10 at a concrete two-period profile. -/
theorem deletePeriod_frame_witness :
    deletePeriod 1 (some wCycle) = .ok wCycleDel1 ∧
    (wCycleDel1.cycleLength = wCycle.cycleLength ∧
     wCycleDel1.periodLength = wCycle.periodLength ∧
     wCycleDel1.symptoms = wCycle.symptoms ∧
     wCycleDel1.shareWith = wCycle.shareWith ∧
     wCycleDel1.expectedNextPeriod = wCycle.expectedNextPeriod ∧
     wCycleDel1.isTracking = wCycle.isTracking) :=
  ⟨by decide, deletePeriod_frame 1 wCycle wCycleDel1 (by decide)⟩

/-- C2: nextPeriod() returns the manual override verbatim (flagged manual)
whenever the override is set and has a start date; otherwise, with a
lastPeriodStart, the calculated forecast starting cycleLength days later
and ending periodLength − 1 days after that, not manual; otherwise null;
and a successful startPeriod clears the override, after which nextPeriod()
is the calculated forecast. -/
theorem getNextPeriod_spec :
    (∀ (c : Cycle) (s : Int),
      c.expectedNextPeriod.isManuallySet = true →
      c.expectedNextPeriod.startDate = some s →
      c.getNextPeriod = some ⟨s, c.expectedNextPeriod.endDate, true⟩) ∧
    (∀ c : Cycle,
      c.expectedNextPeriod.isManuallySet = false ∨
        c.expectedNextPeriod.startDate = none →
      (∀ l : Int, c.lastPeriodStart = some l →
        c.getNextPeriod = some ⟨l + c.cycleLength * msPerDay,
          some (l + c.cycleLength * msPerDay +
            (c.periodLength - 1) * msPerDay), false⟩) ∧
      (c.lastPeriodStart = none → c.getNextPeriod = none)) ∧
    (∀ (pid : Nat) (now : Int) (dateOpt : Option Int)
        (flowOpt : Option Flow) (c c' : Cycle) (ce : Bool),
      startPeriod pid now dateOpt flowOpt (some c) = .ok (c', ce) →
      c'.expectedNextPeriod = ⟨none, none, false⟩ ∧
      c'.getNextPeriod = some ⟨dateOpt.getD now + c'.cycleLength * msPerDay,
        some (dateOpt.getD now + c'.cycleLength * msPerDay +
          (c'.periodLength - 1) * msPerDay), false⟩) := by
  refine ⟨?_, ?_, ?_⟩
  · intro c s h1 h2
    simp [Cycle.getNextPeriod, h1, h2]
  · intro c hc
    constructor
    · intro l hl
      rcases hc with hman | hsd
      · simp [Cycle.getNextPeriod, Cycle.calculatedNextPeriod, hman, hl]
      · cases hb : c.expectedNextPeriod.isManuallySet <;>
          simp [Cycle.getNextPeriod, Cycle.calculatedNextPeriod, hb, hsd, hl]
    · intro hl
      rcases hc with hman | hsd
      · simp [Cycle.getNextPeriod, Cycle.calculatedNextPeriod, hman, hl]
      · cases hb : c.expectedNextPeriod.isManuallySet <;>
          simp [Cycle.getNextPeriod, Cycle.calculatedNextPeriod, hb, hsd, hl]
  · intro pid now dateOpt flowOpt c c' ce h
    simp only [startPeriod] at h
    split at h
    · exact Except.noConfusion h
    · cases h; exact ⟨rfl, rfl⟩

/-- A profile with a manually set expected next period. -/
def wCycleManual : Cycle :=
  { defaultCycle with
      lastPeriodStart := some 0
      expectedNextPeriod := ⟨some (40 * msPerDay), some (44 * msPerDay), true⟩ }

/-- The manual-override profile after starting a period on day 60. -/
def wCycleStarted : Cycle :=
  { defaultCycle with
      periods := [⟨7, 60 * msPerDay, none, .medium⟩]
      lastPeriodStart := some (60 * msPerDay) }

/-- Witness for C2: the override wins over the calculated forecast, and a
concrete startPeriod clears it. -/
theorem getNextPeriod_spec_witness :
    wCycleManual.getNextPeriod =
      some ⟨40 * msPerDay, some (44 * msPerDay), true⟩ ∧
    startPeriod 7 (60 * msPerDay) none none (some wCycleManual) =
      .ok (wCycleStarted, false) ∧
    (wCycleStarted.expectedNextPeriod = ⟨none, none, false⟩ ∧
     wCycleStarted.getNextPeriod =
       some ⟨60 * msPerDay + wCycleStarted.cycleLength * msPerDay,
         some (60 * msPerDay + wCycleStarted.cycleLength * msPerDay +
           (wCycleStarted.periodLength - 1) * msPerDay), false⟩) :=
  ⟨getNextPeriod_spec.1 wCycleManual (40 * msPerDay) (by decide) (by decide),
   by decide,
   getNextPeriod_spec.2.2 7 (60 * msPerDay) none none wCycleManual
     wCycleStarted false (by decide)⟩

/-- C4: with a lastPeriodStart the current cycle day is
ceil(|today − lastPeriodStart| in days) mod cycleLength with a zero
remainder mapped to cycleLength (always in 1..cycleLength, never 0), and
the phase buckets are menstrual for day ≤ periodLength, follicular ≤ 13,
ovulation ≤ 16, luteal otherwise; both are null without lastPeriodStart. -/
theorem currentCycleDay_phase_spec :
    (∀ (c : Cycle) (today : Int), c.lastPeriodStart = none →
      c.getCurrentCycleDay today = none ∧ c.getCurrentPhase today = none) ∧
    (∀ (c : Cycle) (today l : Int), c.lastPeriodStart = some l →
      0 < c.cycleLength →
      c.getCurrentCycleDay today =
        some (if jsCeilDiv |today - l| msPerDay % c.cycleLength = 0
              then c.cycleLength
              else jsCeilDiv |today - l| msPerDay % c.cycleLength) ∧
      (∀ day : Int, c.getCurrentCycleDay today = some day →
        1 ≤ day ∧ day ≤ c.cycleLength ∧
        c.getCurrentPhase today = some (phaseOfDay day c.periodLength))) ∧
    (∀ day p : Int,
      (day ≤ p → phaseOfDay day p = .menstrual) ∧
      (p < day → day ≤ 13 → phaseOfDay day p = .follicular) ∧
      (p < day → 13 < day → day ≤ 16 → phaseOfDay day p = .ovulation) ∧
      (p < day → 16 < day → phaseOfDay day p = .luteal)) := by
  refine ⟨?_, ?_, ?_⟩
  · intro c today h
    simp [Cycle.getCurrentCycleDay, Cycle.getCurrentPhase, h]
  · intro c today l hl hpos
    have hr0 : 0 ≤ jsCeilDiv |today - l| msPerDay % c.cycleLength :=
      Int.emod_nonneg _ (by omega)
    have hrlt : jsCeilDiv |today - l| msPerDay % c.cycleLength <
        c.cycleLength := Int.emod_lt_of_pos _ hpos
    have hday : c.getCurrentCycleDay today =
        some (if jsCeilDiv |today - l| msPerDay % c.cycleLength = 0
              then c.cycleLength
              else jsCeilDiv |today - l| msPerDay % c.cycleLength) := by
      simp [Cycle.getCurrentCycleDay, hl]
    refine ⟨hday, ?_⟩
    intro day hd
    rw [hday] at hd
    have hdval := Option.some.inj hd
    have hrange : 1 ≤ day ∧ day ≤ c.cycleLength := by
      by_cases h0 : jsCeilDiv |today - l| msPerDay % c.cycleLength = 0
      · rw [if_pos h0] at hdval; omega
      · rw [if_neg h0] at hdval; omega
    refine ⟨hrange.1, hrange.2, ?_⟩
    simp only [Cycle.getCurrentPhase, hday, hdval]
    rw [if_neg (by omega)]
  · intro day p
    refine ⟨?_, ?_, ?_, ?_⟩
    · intro h; simp [phaseOfDay, h]
    · intro h1 h2
      unfold phaseOfDay
      rw [if_neg (by omega), if_pos (by omega)]
    · intro h1 h2 h3
      unfold phaseOfDay
      rw [if_neg (by omega), if_neg (by omega), if_pos (by omega)]
    · intro h1 h2
      unfold phaseOfDay
      rw [if_neg (by omega), if_neg (by omega), if_neg (by omega)]

/-- A profile with cycleLength 28 and periodLength 5 whose last period
started at the epoch, viewed 14 days later. -/
def wCycle28 : Cycle := { defaultCycle with lastPeriodStart := some 0 }

/-- Witness for C4: concrete day computation and the boundary examples of
the phase buckets (day 3 menstrual, 13 follicular, 15 ovulation, 20
luteal for periodLength 5). -/
theorem currentCycleDay_phase_spec_witness :
    (wCycle28.getCurrentCycleDay (14 * msPerDay) = some 14 ∧
     1 ≤ (14 : Int) ∧ (14 : Int) ≤ 28) ∧
    phaseOfDay 3 5 = .menstrual ∧ phaseOfDay 13 5 = .follicular ∧
    phaseOfDay 15 5 = .ovulation ∧ phaseOfDay 20 5 = .luteal :=
  ⟨⟨by decide,
    ((currentCycleDay_phase_spec.2.1 wCycle28 (14 * msPerDay) 0 (by decide)
      (by decide)).2 14 (by decide)).1,
    ((currentCycleDay_phase_spec.2.1 wCycle28 (14 * msPerDay) 0 (by decide)
      (by decide)).2 14 (by decide)).2.1⟩,
   (currentCycleDay_phase_spec.2.2 3 5).1 (by decide),
   (currentCycleDay_phase_spec.2.2 13 5).2.1 (by decide) (by decide),
   (currentCycleDay_phase_spec.2.2 15 5).2.2.1 (by decide) (by decide)
     (by decide),
   (currentCycleDay_phase_spec.2.2 20 5).2.2.2 (by decide) (by decide)⟩

set_option maxRecDepth 100000 in
/-- At every non-tie point of the smoothing domain for cycle lengths the
binary64 evaluation agrees with exact rational rounding; at tie points
of the form 7c + 3d = 5 mod 10 it may fall below.  Checked over the full
finite domain [21,45] x [21,45]. -/
theorem smoothAgree_cycle :
    ∀ cl ∈ Finset.Icc (21 : Int) 45, ∀ db ∈ Finset.Icc (21 : Int) 45,
      (7 * cl + 3 * db) % 10 = 5 ∨ jsSmoothI cl db = specSmooth cl db := by
  decide

set_option maxRecDepth 100000 in
/-- Same agreement over the period-length smoothing domain [1,10] x [1,10]. -/
theorem smoothAgree_period :
    ∀ pl ∈ Finset.Icc (1 : Int) 10, ∀ pd ∈ Finset.Icc (1 : Int) 10,
      (7 * pl + 3 * pd) % 10 = 5 ∨ jsSmoothI pl pd = specSmooth pl pd := by
  decide

/-- A profile with cycleLength 24 whose last period started at the epoch. -/
def wCycle24 : Cycle :=
  { defaultCycle with cycleLength := 24, lastPeriodStart := some 0 }

/-- Counterexample for C3: starting a period 29 days after the last start
on a profile with cycleLength 24 is in the sane range (21 ≤ 29 ≤ 45), yet
the code sets cycleLength to 25, not round(0.7·24 + 0.3·29) = round(25.5)
= 26: the binary64 sum 24·0.7 + 29·0.3 falls just below 25.5. -/
theorem smoothing_exact_round_counterexample :
    (21 ≤ (29 : Int) ∧ (29 : Int) ≤ 45) ∧
    ((applyOp (29 * msPerDay) 0 0 (some wCycle24)
        (.startP 11 none none)).getD defaultCycle).cycleLength = 25 ∧
    specSmooth 24 29 = 26 ∧ (25 : Int) ≠ specSmooth 24 29 := by
  decide

/-- C3 (amended): startPeriod with a prior lastPeriodStart updates
cycleLength exactly when 21 ≤ daysBetween ≤ 45, and endPeriod updates
periodLength exactly when 1 ≤ periodDays ≤ 10, otherwise leaving them
unchanged; the updated value is Math.round of the binary64 evaluation of
0.7·old + 0.3·observed, which coincides with exact rational rounding at
every non-tie point of the respective domains. -/
theorem smoothing_binary64_spec :
    (∀ (pid : Nat) (now : Int) (dateOpt : Option Int) (flowOpt : Option Flow)
        (c : Cycle) (l : Int) (c' : Cycle) (ce : Bool),
      c.lastPeriodStart = some l →
      startPeriod pid now dateOpt flowOpt (some c) = .ok (c', ce) →
      c'.cycleLength =
        (if 21 ≤ jsRoundDiv (dateOpt.getD now - l) msPerDay ∧
            jsRoundDiv (dateOpt.getD now - l) msPerDay ≤ 45 then
          jsSmoothI c.cycleLength (jsRoundDiv (dateOpt.getD now - l) msPerDay)
        else c.cycleLength)) ∧
    (∀ (now : Int) (dateOpt : Option Int) (c : Cycle) (lastP : Period)
        (c' : Cycle),
      c.periods.getLast? = some lastP → lastP.endDate = none →
      endPeriod now dateOpt (some c) = .ok c' →
      c'.periodLength =
        (if 1 ≤ jsRoundDiv (dateOpt.getD now - lastP.startDate) msPerDay + 1 ∧
            jsRoundDiv (dateOpt.getD now - lastP.startDate) msPerDay + 1 ≤ 10
         then jsSmoothI c.periodLength
            (jsRoundDiv (dateOpt.getD now - lastP.startDate) msPerDay + 1)
         else c.periodLength)) ∧
    (∀ cl db : Int, 21 ≤ cl → cl ≤ 45 → 21 ≤ db → db ≤ 45 →
      (7 * cl + 3 * db) % 10 ≠ 5 → jsSmoothI cl db = specSmooth cl db) ∧
    (∀ pl pd : Int, 1 ≤ pl → pl ≤ 10 → 1 ≤ pd → pd ≤ 10 →
      (7 * pl + 3 * pd) % 10 ≠ 5 → jsSmoothI pl pd = specSmooth pl pd) := by
  refine ⟨?_, ?_, ?_, ?_⟩
  · intro pid now dateOpt flowOpt c l c' ce hl h
    simp only [startPeriod, Option.getD_some] at h
    split at h
    · exact Except.noConfusion h
    · cases h
      simp only [Option.getD_some, hl]
      by_cases hdb : 21 ≤ jsRoundDiv (dateOpt.getD now - l) msPerDay ∧
          jsRoundDiv (dateOpt.getD now - l) msPerDay ≤ 45
      · rw [if_pos hdb, if_pos hdb]
      · rw [if_neg hdb, if_neg hdb]
  · intro now dateOpt c lastP c' hlast hopen h
    simp only [endPeriod, hlast, hopen, Option.isSome_none, Bool.false_eq_true,
      if_false] at h
    split at h
    · exact Except.noConfusion h
    · split at h
      next hpd =>
        cases h
        rw [if_pos hpd]
      next hpd =>
        cases h
        rw [if_neg hpd]
  · intro cl db h1 h2 h3 h4 h5
    exact (smoothAgree_cycle cl (Finset.mem_Icc.mpr ⟨h1, h2⟩) db
      (Finset.mem_Icc.mpr ⟨h3, h4⟩)).resolve_left h5
  · intro pl pd h1 h2 h3 h4 h5
    exact (smoothAgree_period pl (Finset.mem_Icc.mpr ⟨h1, h2⟩) pd
      (Finset.mem_Icc.mpr ⟨h3, h4⟩)).resolve_left h5

/-- The 28-day profile after a startPeriod 30 days later (in-range gap:
cycleLength smoothed 28 → 29). -/
def wCycle28After30 : Cycle :=
  { defaultCycle with
      cycleLength := 29
      periods := [⟨3, 30 * msPerDay, none, .medium⟩]
      lastPeriodStart := some (30 * msPerDay) }

/-- The 28-day profile after a startPeriod 10 days later (outlier gap:
cycleLength left at 28). -/
def wCycle28After10 : Cycle :=
  { defaultCycle with
      periods := [⟨4, 10 * msPerDay, none, .medium⟩]
      lastPeriodStart := some (10 * msPerDay) }

/-- Witness for C3 (amended): prior length 28 with daysBetween 30 yields
29, daysBetween 10 leaves 28, and the binary64 value agrees with exact
rounding at the non-tie pair (28, 30). -/
theorem smoothing_binary64_spec_witness :
    startPeriod 3 (30 * msPerDay) none none (some wCycle28) =
      .ok (wCycle28After30, false) ∧
    wCycle28After30.cycleLength =
      (if 21 ≤ jsRoundDiv (30 * msPerDay - 0) msPerDay ∧
          jsRoundDiv (30 * msPerDay - 0) msPerDay ≤ 45 then
        jsSmoothI 28 (jsRoundDiv (30 * msPerDay - 0) msPerDay)
      else 28) ∧
    wCycle28After30.cycleLength = 29 ∧
    startPeriod 4 (10 * msPerDay) none none (some wCycle28) =
      .ok (wCycle28After10, false) ∧
    wCycle28After10.cycleLength = 28 ∧
    jsSmoothI 28 30 = specSmooth 28 30 :=
  ⟨by decide,
   smoothing_binary64_spec.1 3 (30 * msPerDay) none none wCycle28 0
     wCycle28After30 false (by decide) (by decide),
   by decide, by decide, by decide,
   smoothing_binary64_spec.2.2.1 28 30 (by decide) (by decide) (by decide)
     (by decide) (by decide)⟩

/-- The ledger is already fixed when the cache stage of /period/log runs. -/
theorem logUpdateCaches_periods (sd : Int) (ed : Option Int) (c : Cycle) :
    (logUpdateCaches sd ed c).periods = c.periods := by
  unfold logUpdateCaches
  split
  · split <;> rfl
  · rfl

/-- The cache stage of /period/log does not touch cycleLength. -/
theorem logUpdateCaches_cycleLength (sd : Int) (ed : Option Int) (c : Cycle) :
    (logUpdateCaches sd ed c).cycleLength = c.cycleLength := by
  unfold logUpdateCaches
  split
  · split <;> rfl
  · rfl

/-- The cache stage of /period/log does not touch periodLength. -/
theorem logUpdateCaches_periodLength (sd : Int) (ed : Option Int) (c : Cycle) :
    (logUpdateCaches sd ed c).periodLength = c.periodLength := by
  unfold logUpdateCaches
  split
  · split <;> rfl
  · rfl

/-- The batch re-estimate does not touch the ledger. -/
theorem logBatchCycleLength_periods (c : Cycle) :
    (logBatchCycleLength c).periods = c.periods := by
  unfold logBatchCycleLength
  split
  · split <;> rfl
  · rfl

/-- Value of the batch cycleLength re-estimate. -/
theorem logBatchCycleLength_cycleLength (c : Cycle) :
    (logBatchCycleLength c).cycleLength =
      if 2 ≤ c.periods.length then
        if 0 < (validGaps c.periods).length then
          jsRoundDiv (validGaps c.periods).sum (validGaps c.periods).length
        else c.cycleLength
      else c.cycleLength := by
  unfold logBatchCycleLength
  split
  · split <;> rfl
  · rfl

/-- The batch re-estimate does not touch periodLength. -/
theorem logBatchCycleLength_periodLength (c : Cycle) :
    (logBatchCycleLength c).periodLength = c.periodLength := by
  unfold logBatchCycleLength
  split
  · split <;> rfl
  · rfl

/-- The periodLength smoothing stage does not touch the ledger. -/
theorem logSmoothPeriodLength_periods (sd : Int) (ed : Option Int)
    (c : Cycle) : (logSmoothPeriodLength sd ed c).periods = c.periods := by
  unfold logSmoothPeriodLength
  split
  · split <;> rfl
  · rfl

/-- The periodLength smoothing stage does not touch cycleLength. -/
theorem logSmoothPeriodLength_cycleLength (sd : Int) (ed : Option Int)
    (c : Cycle) :
    (logSmoothPeriodLength sd ed c).cycleLength = c.cycleLength := by
  unfold logSmoothPeriodLength
  split
  · split <;> rfl
  · rfl

/-- The ongoing-check on the ledger's last entry, spelled out. -/
theorem lastOngoing_iff (l : List Period) :
    lastOngoing l = true ↔ ∃ p, l.getLast? = some p ∧ p.endDate = none := by
  unfold lastOngoing
  cases h : l.getLast? with
  | none => simp
  | some p => simp [Option.isNone_iff_eq_none]

/-- C5: on well-formed input startPeriod fails (with a conflict) exactly
when the ledger's last entry is ongoing; endPeriod fails with
notFoundError without a profile, with a conflict exactly when no period
is ongoing (empty ledger or closed last entry), with validationError
exactly when the computed periodDays is below 1; failed requests leave
the stored profile unchanged. -/
theorem startEnd_error_spec :
    (∀ l : List Period,
      lastOngoing l = true ↔ ∃ p, l.getLast? = some p ∧ p.endDate = none) ∧
    (∀ (pid : Nat) (now : Int) (dateOpt : Option Int) (flowOpt : Option Flow)
        (c : Cycle) (e : CycleError),
      startPeriod pid now dateOpt flowOpt (some c) = .error e ↔
        e = .conflictError none ∧ lastOngoing c.periods = true) ∧
    (∀ (now : Int) (dateOpt : Option Int),
      endPeriod now dateOpt none = .error .notFoundError) ∧
    (∀ (now : Int) (dateOpt : Option Int) (c : Cycle),
      endPeriod now dateOpt (some c) = .error (.conflictError none) ↔
        c.periods.getLast? = none ∨
          ∃ p, c.periods.getLast? = some p ∧ p.endDate.isSome) ∧
    (∀ (now : Int) (dateOpt : Option Int) (c : Cycle) (p : Period),
      c.periods.getLast? = some p → p.endDate = none →
      (endPeriod now dateOpt (some c) = .error .validationError ↔
        jsRoundDiv (dateOpt.getD now - p.startDate) msPerDay + 1 < 1)) ∧
    (∀ (now lo hi : Int) (s : Option Cycle) (pid : Nat)
        (dateOpt : Option Int) (flowOpt : Option Flow) (e : CycleError),
      (startPeriod pid now dateOpt flowOpt s = .error e →
        applyOp now lo hi s (.startP pid dateOpt flowOpt) = s) ∧
      (endPeriod now dateOpt s = .error e →
        applyOp now lo hi s (.endP dateOpt) = s)) := by
  refine ⟨lastOngoing_iff, ?_, ?_, ?_, ?_, ?_⟩
  · intro pid now dateOpt flowOpt c e
    simp only [startPeriod, Option.getD_some]
    split
    next hcond =>
      simp only [Except.error.injEq]
      exact ⟨fun h => ⟨h.symm, hcond⟩, fun h => h.1.symm⟩
    next hcond =>
      simp only [Bool.not_eq_true] at hcond
      simp [hcond]
  · intro now dateOpt; rfl
  · intro now dateOpt c
    cases hL : c.periods.getLast? with
    | none => simp [endPeriod, hL]
    | some p =>
        cases hE : p.endDate with
        | none =>
            simp only [endPeriod, hL, hE, Option.isSome_none,
              Bool.false_eq_true, if_false]
            split
            · simp [hL, hE]
            · refine iff_of_false ?_ ?_
              · split <;> simp
              · simp [hL, hE]
        | some d =>
            simp [endPeriod, hL, hE]
  · intro now dateOpt c p hL hE
    simp only [endPeriod, hL, hE, Option.isSome_none, Bool.false_eq_true,
      if_false]
    split
    next hpd => simp [hpd]
    next hpd =>
      refine ⟨fun hcontra => ?_, fun hcontra => absurd hcontra hpd⟩
      exfalso; revert hcontra; split <;> simp
  · intro now lo hi s pid dateOpt flowOpt e
    constructor
    · intro h; simp [applyOp, h]
    · intro h; simp [applyOp, h]

/-- A profile whose only period is still ongoing. -/
def wOpen : Cycle :=
  { defaultCycle with
      periods := [⟨5, 0, none, .medium⟩]
      lastPeriodStart := some 0 }

/-- Witness for C5 at concrete profiles: starting over an ongoing period
conflicts, ending without a profile is not found, ending with a closed
last entry conflicts, and ending before the start is a validation
failure. -/
theorem startEnd_error_spec_witness :
    startPeriod 9 (2 * msPerDay) none none (some wOpen) =
      .error (.conflictError none) ∧
    endPeriod 0 none none = .error .notFoundError ∧
    endPeriod (2 * msPerDay) none (some wCycle) =
      .error (.conflictError none) ∧
    endPeriod (-(2 * msPerDay)) none (some wOpen) =
      .error .validationError :=
  ⟨(startEnd_error_spec.2.1 9 (2 * msPerDay) none none wOpen
      (.conflictError none)).mpr ⟨rfl, by decide⟩,
   startEnd_error_spec.2.2.1 0 none,
   (startEnd_error_spec.2.2.2.1 (2 * msPerDay) none wCycle).mpr (by decide),
   (startEnd_error_spec.2.2.2.2.1 (-(2 * msPerDay)) none wOpen
      ⟨5, 0, none, .medium⟩ (by decide) (by decide)).mpr (by decide)⟩

/-- C6: on well-formed input logPeriod rejects with a conflict exactly
when the new entry's effective interval intersects some existing entry's
effective interval under the source's test, the reported date is the
first conflicting entry's start date, and a rejected request leaves the
stored profile unchanged. -/
theorem logPeriod_overlap_spec :
    ∀ (pid : Nat) (lo hi sd : Int) (ed : Option Int) (fl : Option Flow)
      (c : Cycle),
      (∀ e, ed = some e → sd ≤ e) → lo ≤ sd → sd ≤ hi →
      (∀ dOpt, logPeriod pid lo hi sd ed fl (some c) =
          .error (.conflictError dOpt) ↔
        ∃ p, c.periods.find? (overlapsNew sd (effectiveEnd sd ed)) = some p ∧
          dOpt = some p.startDate) ∧
      ((logPeriod pid lo hi sd ed fl (some c)).isOk = true ↔
        ∀ p ∈ c.periods, ¬(sd ≤ p.effectiveEndDate ∧
          p.startDate ≤ effectiveEnd sd ed)) ∧
      (∀ e, logPeriod pid lo hi sd ed fl (some c) = .error e →
        ∀ now, applyOp now lo hi (some c) (.logP pid sd ed fl) = some c) := by
  intro pid lo hi sd ed fl c hEnd hLo hHi
  have hv1 : endBeforeStart sd ed = false := by
    unfold endBeforeStart
    cases ed with
    | none => rfl
    | some e =>
        simp only [decide_eq_false_iff_not, not_lt]
        exact hEnd e rfl
  have hv2 : ¬(sd < lo ∨ hi < sd) := by omega
  refine ⟨?_, ?_, ?_⟩
  · intro dOpt
    simp only [logPeriod, Option.getD_some, hv1, Bool.false_eq_true,
      if_false, if_neg hv2]
    cases hF : c.periods.find? (overlapsNew sd (effectiveEnd sd ed)) with
    | none => simp [hF]
    | some p =>
        simp only [hF, Except.error.injEq, CycleError.conflictError.injEq]
        constructor
        · intro h; exact ⟨p, rfl, h.symm⟩
        · rintro ⟨q, hq, rfl⟩
          cases Option.some.inj hq; rfl
  · simp only [logPeriod, Option.getD_some, hv1, Bool.false_eq_true,
      if_false, if_neg hv2]
    cases hF : c.periods.find? (overlapsNew sd (effectiveEnd sd ed)) with
    | none =>
        simp only [hF, Except.isOk, Except.toBool, true_iff]
        intro p hp hover
        have := List.find?_eq_none.mp hF p hp
        rw [overlapsNew] at this
        simp only [decide_eq_true_eq] at this
        exact this ⟨hover.1, hover.2⟩
    | some p =>
        have hmem := List.mem_of_find?_eq_some hF
        have hov := List.find?_some hF
        rw [overlapsNew] at hov
        simp only [decide_eq_true_eq] at hov
        simp only [hF]
        refine iff_of_false ?_ ?_
        · simp [Except.isOk, Except.toBool]
        · intro hall; exact absurd hov (hall p hmem)
  · intro e h now
    simp [applyOp, h]

/-- Witness for C6: logging day 2 to day 5 over the completed day 0–4
sample period is rejected with that period's start date; the rejection
leaves the profile unchanged. -/
theorem logPeriod_overlap_spec_witness :
    logPeriod 12 (-(365 * msPerDay)) (365 * msPerDay) (2 * msPerDay)
      (some (5 * msPerDay)) none (some wCycle) =
      .error (.conflictError (some 0)) ∧
    applyOp 0 (-(365 * msPerDay)) (365 * msPerDay) (some wCycle)
      (.logP 12 (2 * msPerDay) (some (5 * msPerDay)) none) = some wCycle :=
  ⟨((logPeriod_overlap_spec 12 (-(365 * msPerDay)) (365 * msPerDay)
      (2 * msPerDay) (some (5 * msPerDay)) none wCycle
      (by intro e he; cases Option.some.inj he; decide)
      (by decide) (by decide)).1 (some 0)).mpr
      ⟨wPeriod1, by decide, by decide⟩,
   ((logPeriod_overlap_spec 12 (-(365 * msPerDay)) (365 * msPerDay)
      (2 * msPerDay) (some (5 * msPerDay)) none wCycle
      (by intro e he; cases Option.some.inj he; decide)
      (by decide) (by decide)).2.2 (.conflictError (some 0))
      (((logPeriod_overlap_spec 12 (-(365 * msPerDay)) (365 * msPerDay)
        (2 * msPerDay) (some (5 * msPerDay)) none wCycle
        (by intro e he; cases Option.some.inj he; decide)
        (by decide) (by decide)).1 (some 0)).mpr
        ⟨wPeriod1, by decide, by decide⟩) 0)⟩

/-- C7: after a successful logPeriod the ledger is the re-sorted
insertion, and with at least two entries cycleLength is the rounded mean
of the valid (21–45 day) consecutive start-date gaps among the three
most recent entries, unchanged when no gap is valid. -/
theorem logPeriod_batch_cycleLength :
    ∀ (pid : Nat) (lo hi sd : Int) (ed : Option Int) (fl : Option Flow)
      (c c' : Cycle),
      logPeriod pid lo hi sd ed fl (some c) = .ok c' →
      c'.periods = sortPeriods (c.periods ++ [⟨pid, sd, ed, fl.getD .medium⟩]) ∧
      (2 ≤ c'.periods.length →
        c'.cycleLength =
          if 0 < (validGaps c'.periods).length then
            jsRoundDiv (validGaps c'.periods).sum (validGaps c'.periods).length
          else c.cycleLength) := by
  intro pid lo hi sd ed fl c c' h
  simp only [logPeriod, Option.getD_some] at h
  split at h
  · exact Except.noConfusion h
  split at h
  · exact Except.noConfusion h
  split at h
  · exact Except.noConfusion h
  cases h
  have hp : (logSmoothPeriodLength sd ed (logBatchCycleLength
        (logUpdateCaches sd ed
          { c with
              periods := sortPeriods
                (c.periods ++ [⟨pid, sd, ed, fl.getD .medium⟩]) }))).periods =
      sortPeriods (c.periods ++ [⟨pid, sd, ed, fl.getD .medium⟩]) := by
    rw [logSmoothPeriodLength_periods, logBatchCycleLength_periods,
      logUpdateCaches_periods]
  refine ⟨hp, ?_⟩
  intro hlen
  rw [hp] at hlen
  rw [logSmoothPeriodLength_cycleLength, logBatchCycleLength_cycleLength,
    logUpdateCaches_periods, logUpdateCaches_cycleLength, hp]
  rw [if_pos (by exact hlen)]

/-- The two-period sample profile after logging a third period from day
60 to day 64: the batch re-estimate sees the gaps 30 and 30 and sets
cycleLength to 30. -/
def wLogged3 : Cycle :=
  { defaultCycle with
      cycleLength := 30
      periodLength := jsSmoothI 5 5
      periods := [wPeriod1, wPeriod2,
        ⟨21, 60 * msPerDay, some (64 * msPerDay), .medium⟩]
      lastPeriodStart := some (60 * msPerDay)
      lastPeriodEnd := some (64 * msPerDay) }

/-- Witness for C7: the concrete batch re-estimate after logging the
third sample period. -/
theorem logPeriod_batch_cycleLength_witness :
    logPeriod 21 (-(365 * msPerDay)) (365 * msPerDay) (60 * msPerDay)
      (some (64 * msPerDay)) none (some wCycle) = .ok wLogged3 ∧
    2 ≤ wLogged3.periods.length ∧
    wLogged3.cycleLength =
      (if 0 < (validGaps wLogged3.periods).length then
        jsRoundDiv (validGaps wLogged3.periods).sum
          (validGaps wLogged3.periods).length
      else wCycle.cycleLength) ∧
    wLogged3.cycleLength = 30 :=
  ⟨by decide, by decide,
   (logPeriod_batch_cycleLength 21 (-(365 * msPerDay)) (365 * msPerDay)
      (60 * msPerDay) (some (64 * msPerDay)) none wCycle wLogged3
      (by decide)).2 (by decide),
   by decide⟩

/-- Behaviour of the cache-recomputation stage of DELETE /period: the
stored ledger is a permutation of the remaining entries (re-sorted when
nonempty); on an empty ledger both caches are null; with a completed
entry present the caches come from the completed entry of maximal start
date; with only open entries lastPeriodStart is the maximal start date
and lastPeriodEnd null. -/
theorem recomputeCaches_spec (c : Cycle) (r : List Period) :
    (recomputeCaches c r).periods.Perm r ∧
    ((recomputeCaches c r).periods = [] →
      (recomputeCaches c r).lastPeriodStart = none ∧
      (recomputeCaches c r).lastPeriodEnd = none) ∧
    ((∃ p ∈ (recomputeCaches c r).periods, p.endDate.isSome) →
      ∃ p ∈ (recomputeCaches c r).periods, p.endDate.isSome ∧
        (recomputeCaches c r).lastPeriodStart = some p.startDate ∧
        (recomputeCaches c r).lastPeriodEnd = p.endDate ∧
        ∀ q ∈ (recomputeCaches c r).periods, q.endDate.isSome →
          q.startDate ≤ p.startDate) ∧
    ((recomputeCaches c r).periods ≠ [] →
      (∀ p ∈ (recomputeCaches c r).periods, p.endDate = none) →
      ∃ p ∈ (recomputeCaches c r).periods,
        (recomputeCaches c r).lastPeriodStart = some p.startDate ∧
        (recomputeCaches c r).lastPeriodEnd = none ∧
        ∀ q ∈ (recomputeCaches c r).periods, q.startDate ≤ p.startDate) := by
  unfold recomputeCaches
  split
  next hemp =>
    have hr : r = [] := List.isEmpty_iff.mp hemp
    subst hr
    refine ⟨List.Perm.refl _, fun _ => ⟨rfl, rfl⟩, ?_, ?_⟩
    · rintro ⟨p, hp, _⟩; exact absurd hp (List.not_mem_nil p)
    · intro hne _; exact absurd rfl hne
  next hemp =>
    split
    next m hm =>
      have hmf := List.mem_of_mem_getLast? hm
      rcases List.mem_filter.mp hmf with ⟨hmem, hsome⟩
      have hsorted := (sortPeriods_sorted r).filter
        (fun p => p.endDate.isSome)
      refine ⟨sortPeriods_perm r, ?_, ?_, ?_⟩
      · intro h0
        have h0' : sortPeriods r = [] := h0
        have hperm := sortPeriods_perm r
        rw [h0'] at hperm
        exact absurd (List.isEmpty_iff.mpr hperm.symm.eq_nil) hemp
      · intro _
        refine ⟨m, hmem, hsome, rfl, rfl, ?_⟩
        intro q hq hqsome
        exact pairwise_le_getLast (fun p => p.startDate) _ hsorted m hm q
          (List.mem_filter.mpr ⟨hq, hqsome⟩)
      · intro _ hall
        exact absurd (hall m hmem) (by simp [Option.isSome_iff_ne_none] at hsome ⊢; exact hsome)
    next hnone =>
      split
      next m hm =>
        have hmem := List.mem_of_mem_getLast? hm
        refine ⟨sortPeriods_perm r, ?_, ?_, ?_⟩
        · intro h0
          have h0' : sortPeriods r = [] := h0
          rw [h0'] at hm
          exact Option.noConfusion hm
        · rintro ⟨p, hp, hpsome⟩
          have : (List.filter (fun p => p.endDate.isSome) (sortPeriods r)) = [] :=
            List.getLast?_eq_none_iff.mp hnone
          have hpf : p ∈ List.filter (fun p => p.endDate.isSome)
              (sortPeriods r) := List.mem_filter.mpr ⟨hp, hpsome⟩
          rw [this] at hpf
          exact absurd hpf (List.not_mem_nil p)
        · intro _ _
          refine ⟨m, hmem, rfl, rfl, ?_⟩
          intro q hq
          exact pairwise_le_getLast (fun p => p.startDate) _
            (sortPeriods_sorted r) m hm q hq
      next hnone2 =>
        have hsnil : sortPeriods r = [] := List.getLast?_eq_none_iff.mp hnone2
        refine ⟨sortPeriods_perm r, fun _ => ⟨rfl, rfl⟩, ?_, ?_⟩
        · rintro ⟨p, hp, _⟩
          rw [hsnil] at hp
          exact absurd hp (List.not_mem_nil p)
        · intro hne _
          exact absurd hsnil hne

/-- C8: deletePeriod removes the entry with the given identifier
(notFoundError when absent, or without a profile) and recomputes the
caches: preferred source is the most recent completed remaining entry;
with no completed entry the latest start date with a null end; with an
empty remaining ledger both caches are null. -/
theorem deletePeriod_spec :
    (∀ pid : Nat, deletePeriod pid none = .error .notFoundError) ∧
    (∀ (pid : Nat) (c : Cycle),
      deletePeriod pid (some c) = .error .notFoundError ↔
        ∀ p ∈ c.periods, p.id ≠ pid) ∧
    (∀ (pid : Nat) (c c' : Cycle),
      deletePeriod pid (some c) = .ok c' →
      (∃ idx, c.periods.findIdx? (fun p => p.id == pid) = some idx ∧
        c'.periods.Perm (c.periods.eraseIdx idx)) ∧
      (c'.periods = [] →
        c'.lastPeriodStart = none ∧ c'.lastPeriodEnd = none) ∧
      ((∃ p ∈ c'.periods, p.endDate.isSome) →
        ∃ p ∈ c'.periods, p.endDate.isSome ∧
          c'.lastPeriodStart = some p.startDate ∧
          c'.lastPeriodEnd = p.endDate ∧
          ∀ q ∈ c'.periods, q.endDate.isSome → q.startDate ≤ p.startDate) ∧
      (c'.periods ≠ [] → (∀ p ∈ c'.periods, p.endDate = none) →
        ∃ p ∈ c'.periods, c'.lastPeriodStart = some p.startDate ∧
          c'.lastPeriodEnd = none ∧
          ∀ q ∈ c'.periods, q.startDate ≤ p.startDate)) := by
  refine ⟨fun _ => rfl, ?_, ?_⟩
  · intro pid c
    cases hIdx : c.periods.findIdx? (fun p => p.id == pid) with
    | none =>
        refine iff_of_true (by simp [deletePeriod, hIdx]) ?_
        intro p hp
        simpa using List.findIdx?_eq_none_iff.mp hIdx p hp
    | some idx =>
        refine iff_of_false (by simp [deletePeriod, hIdx]) ?_
        intro hall
        have : c.periods.findIdx? (fun p => p.id == pid) = none :=
          List.findIdx?_eq_none_iff.mpr fun x hx => by
            simpa using hall x hx
        rw [this] at hIdx
        exact Option.noConfusion hIdx
  · intro pid c c' h
    simp only [deletePeriod] at h
    split at h
    · exact Except.noConfusion h
    next idx hIdx =>
      cases h
      exact ⟨⟨idx, hIdx, (recomputeCaches_spec c _).1⟩,
        (recomputeCaches_spec c _).2.1,
        (recomputeCaches_spec c _).2.2.1,
        (recomputeCaches_spec c _).2.2.2⟩

/-- The sample profile after deleting the later completed period: the
remaining completed period supplies both caches. -/
def wCycleDel2 : Cycle :=
  { defaultCycle with
      periods := [wPeriod1]
      lastPeriodStart := some 0
      lastPeriodEnd := some (4 * msPerDay) }

/-- Witness for C8: deleting an absent identifier is not found, deleting
the most recent completed period re-derives both caches from the
remaining completed one. -/
theorem deletePeriod_spec_witness :
    deletePeriod 99 (some wCycle) = .error .notFoundError ∧
    deletePeriod 99 none = .error .notFoundError ∧
    deletePeriod 2 (some wCycle) = .ok wCycleDel2 ∧
    wCycleDel2.lastPeriodStart = some 0 ∧
    wCycleDel2.lastPeriodEnd = some (4 * msPerDay) :=
  ⟨(deletePeriod_spec.2.1 99 wCycle).mpr (by decide),
   deletePeriod_spec.1 99,
   by decide, by decide, by decide⟩

/-- On an authorized read the shared view is the derived record with the
filtered, sorted, capped symptom list. -/
theorem getSharedCycle_ok (now : Int) (viewerId : Nat) (c : Cycle)
    (hmem : viewerId ∈ c.shareWith) :
    getSharedCycle now true viewerId (some c) =
      .ok { recentSymptoms :=
              (sortSymptomsDesc (c.symptoms.filter fun s =>
                decide (now - 7 * msPerDay ≤ s.date))).take 10
            currentPhase := c.getCurrentPhase now
            nextPeriod := c.getNextPeriod
            hasOngoingPeriod := lastOngoing c.periods } := by
  simp [getSharedCycle, hmem]

/-- An unauthorized read (missing relationship or viewer not shared
with) is a permission error. -/
theorem getSharedCycle_err (now : Int) (acc : Bool) (viewerId : Nat)
    (c : Cycle) (hmem : viewerId ∉ c.shareWith) :
    getSharedCycle now acc viewerId (some c) = .error .permissionError := by
  cases acc
  · rfl
  · simp [getSharedCycle, hmem]

/-- C9: getSharedCycle fails with a permission error unless an accepted
relationship exists and the viewer is in the owner's shareWith set; on
success the recent symptoms are exactly the owner's symptoms within the
trailing seven days, sorted newest-first, capped at ten entries. -/
theorem getSharedCycle_spec :
    (∀ (now : Int) (acc : Bool) (viewerId : Nat),
      getSharedCycle now acc viewerId none = .error .permissionError) ∧
    (∀ (now : Int) (viewerId : Nat) (oc : Option Cycle),
      getSharedCycle now false viewerId oc = .error .permissionError) ∧
    (∀ (now : Int) (acc : Bool) (viewerId : Nat) (c : Cycle),
      viewerId ∉ c.shareWith →
      getSharedCycle now acc viewerId (some c) = .error .permissionError) ∧
    (∀ (now : Int) (viewerId : Nat) (c : Cycle),
      viewerId ∈ c.shareWith →
      getSharedCycle now true viewerId (some c) =
        .ok { recentSymptoms :=
                (sortSymptomsDesc (c.symptoms.filter fun s =>
                  decide (now - 7 * msPerDay ≤ s.date))).take 10
              currentPhase := c.getCurrentPhase now
              nextPeriod := c.getNextPeriod
              hasOngoingPeriod := lastOngoing c.periods }) ∧
    (∀ (now : Int) (viewerId : Nat) (c : Cycle) (v : SharedCycleView),
      getSharedCycle now true viewerId (some c) = .ok v →
      viewerId ∈ c.shareWith ∧
      v.recentSymptoms.length ≤ 10 ∧
      (∀ s ∈ v.recentSymptoms,
        now - 7 * msPerDay ≤ s.date ∧ s ∈ c.symptoms) ∧
      v.recentSymptoms.Pairwise (fun a b => b.date ≤ a.date) ∧
      ((c.symptoms.filter fun s =>
          decide (now - 7 * msPerDay ≤ s.date)).length ≤ 10 →
        v.recentSymptoms.Perm (c.symptoms.filter fun s =>
          decide (now - 7 * msPerDay ≤ s.date)))) := by
  refine ⟨?_, ?_, getSharedCycle_err, getSharedCycle_ok, ?_⟩
  · intro now acc viewerId
    cases acc <;> rfl
  · intro now viewerId oc
    cases oc <;> rfl
  · intro now viewerId c v h
    by_cases hmem : viewerId ∈ c.shareWith
    · rw [getSharedCycle_ok now viewerId c hmem] at h
      have hv := (Except.ok.inj h).symm
      subst hv
      set F := c.symptoms.filter fun s => decide (now - 7 * msPerDay ≤ s.date)
        with hF
      refine ⟨hmem, ?_, ?_, ?_, ?_⟩
      · rw [List.length_take]
        exact min_le_left _ _
      · intro s hs
        have hs' : s ∈ sortSymptomsDesc F := List.take_subset 10 _ hs
        have hsF : s ∈ F := (sortSymptomsDesc_perm F).mem_iff.mp hs'
        rcases List.mem_filter.mp hsF with ⟨hsc, hsd⟩
        exact ⟨by simpa using hsd, hsc⟩
      · exact List.Pairwise.sublist (List.take_sublist 10 _)
          (sortSymptomsDesc_sorted F)
      · intro hlen
        have hlen' : (sortSymptomsDesc F).length ≤ 10 := by
          rw [(sortSymptomsDesc_perm F).length_eq]
          exact hlen
        rw [List.take_of_length_le hlen']
        exact sortSymptomsDesc_perm F
    · rw [getSharedCycle_err now true viewerId c hmem] at h
      exact Except.noConfusion h

/-- A profile sharing with viewer 42, holding three symptoms of which two
fall in the trailing week as of time 0. -/
def wShared : Cycle :=
  { defaultCycle with
      shareWith := [42]
      symptoms := [⟨-(1 * msPerDay), .cramps, 3, none⟩,
        ⟨-(10 * msPerDay), .fatigue, 2, none⟩,
        ⟨-(2 * msPerDay), .headache, 3, none⟩] }

/-- The view of the sharing sample profile: the two in-window symptoms
newest-first, no phase or forecast data. -/
def wSharedView : SharedCycleView :=
  { recentSymptoms := [⟨-(1 * msPerDay), .cramps, 3, none⟩,
      ⟨-(2 * msPerDay), .headache, 3, none⟩]
    currentPhase := none
    nextPeriod := none
    hasOngoingPeriod := false }

/-- Witness for C9: the concrete shared view for an authorized viewer,
and permission failures for a non-shared viewer and for a missing
relationship. -/
theorem getSharedCycle_spec_witness :
    getSharedCycle 0 true 42 (some wShared) = .ok wSharedView ∧
    (42 ∈ wShared.shareWith ∧
     wSharedView.recentSymptoms.length ≤ 10 ∧
     (∀ s ∈ wSharedView.recentSymptoms,
       (0 : Int) - 7 * msPerDay ≤ s.date ∧ s ∈ wShared.symptoms) ∧
     wSharedView.recentSymptoms.Pairwise (fun a b => b.date ≤ a.date) ∧
     ((wShared.symptoms.filter fun s =>
         decide ((0 : Int) - 7 * msPerDay ≤ s.date)).length ≤ 10 →
       wSharedView.recentSymptoms.Perm (wShared.symptoms.filter fun s =>
         decide ((0 : Int) - 7 * msPerDay ≤ s.date)))) ∧
    getSharedCycle 0 true 41 (some wShared) = .error .permissionError ∧
    getSharedCycle 0 false 42 (some wShared) = .error .permissionError :=
  ⟨by decide,
   getSharedCycle_spec.2.2.2.2 0 42 wShared wSharedView (by decide),
   getSharedCycle_spec.2.2.1 0 true 41 wShared (by decide),
   getSharedCycle_spec.2.1 0 42 (some wShared)⟩

/-- Counterexample for C1: the claimed global ledger invariants fail on
reachable states.  Logging two open periods three weeks apart passes the
overlap check (each effective interval is only seven days) and leaves two
ongoing periods; and a backdated startPeriod, which performs no overlap
check at all, inserts a period overlapping a previously logged one. -/
theorem ledger_invariants_counterexample :
    ¬ atMostOneOngoing (((applyOps 0 (-(365 * msPerDay)) (365 * msPerDay)
        (some defaultCycle)
        [.logP 1 0 none none,
         .logP 2 (21 * msPerDay) none none]).getD defaultCycle).periods) ∧
    ¬ noOverlaps (((applyOps (100 * msPerDay) (-(365 * msPerDay))
        (365 * msPerDay) (some defaultCycle)
        [.logP 1 0 (some (4 * msPerDay)) none,
         .startP 2 (some (2 * msPerDay)) none]).getD defaultCycle).periods) := by
  decide

/-- C1 (amended): the code enforces the temporal rules only locally, not
as state invariants — a successful logPeriod's new entry does not overlap
any entry present at insertion time, and startPeriod succeeds only when
the ledger's last entry is not ongoing; reachable states may still hold
two ongoing periods or overlapping intervals (see the counterexample). -/
theorem ledger_local_guarantees :
    (∀ (pid : Nat) (lo hi sd : Int) (ed : Option Int) (fl : Option Flow)
        (c c' : Cycle),
      logPeriod pid lo hi sd ed fl (some c) = .ok c' →
      ∀ p ∈ c.periods,
        ¬ periodsOverlap ⟨pid, sd, ed, fl.getD .medium⟩ p) ∧
    (∀ (pid : Nat) (now : Int) (dateOpt : Option Int)
        (flowOpt : Option Flow) (c : Cycle) (r : Cycle × Bool),
      startPeriod pid now dateOpt flowOpt (some c) = .ok r →
      lastOngoing c.periods = false) := by
  constructor
  · intro pid lo hi sd ed fl c c' h p hp hov
    simp only [logPeriod, Option.getD_some] at h
    split at h
    · exact Except.noConfusion h
    split at h
    · exact Except.noConfusion h
    split at h
    · exact Except.noConfusion h
    next hF =>
      have := List.find?_eq_none.mp hF p hp
      rw [overlapsNew] at this
      simp only [decide_eq_true_eq] at this
      exact this ⟨hov.1, hov.2⟩
  · intro pid now dateOpt flowOpt c r h
    simp only [startPeriod, Option.getD_some] at h
    split at h
    · exact Except.noConfusion h
    next hcond => simpa using hcond

/-- Witness for C1 (amended) at the sample profiles: the logged day 60–64
entry does not overlap the completed day 0–4 entry, and the successful
start on the override profile found no ongoing last entry. -/
theorem ledger_local_guarantees_witness :
    ¬ periodsOverlap ⟨21, 60 * msPerDay, some (64 * msPerDay), .medium⟩
        wPeriod1 ∧
    lastOngoing wCycleManual.periods = false :=
  ⟨ledger_local_guarantees.1 21 (-(365 * msPerDay)) (365 * msPerDay)
      (60 * msPerDay) (some (64 * msPerDay)) none wCycle wLogged3
      (by decide) wPeriod1 (by decide),
   ledger_local_guarantees.2 7 (60 * msPerDay) none none wCycleManual
      (wCycleStarted, false) (by decide)⟩

end CoupleApp
